import Mathlib

/-!
Verification of the cursor–viewport coordination engine of the `wlte` editor.

The development shallowly embeds the relevant Rust sources:

* `src/base/math.rs` — the `Position`/`Size`/`Bounds` records and the
  `right`/`left`/`top`/`bottom` accessors;
* `src/editor/buffer.rs` — `Buffer::new`, `Buffer::load` (the filesystem read
  is an external effect, so `load` takes the read result as an explicit
  `Option String` argument: `none` models a read error);
* `src/editor/view.rs` — `line_len_at`, `total_lines`, the scroll offset and
  viewport accessors.  The cursor engine only ever reads a line through its
  grapheme-cluster count (`line.graphemes(true).count()`), and grapheme
  segmentation lives in the external `unicode_segmentation` collaborator, so
  the `App` model abstracts the buffer by the list of per-line grapheme
  counts (`lines : List Nat`);
* `src/app.rs` — `App::execute_command` and the mouse-wheel/resize branches of
  `App::handle_events`.

Numeric representation: Rust `u32`/`usize`/`i64` values are `Nat`/`Int` with
the wrap-around of release-mode arithmetic made explicit (`% 2^32` where the
source can overflow; a comment marks each spot where a debug build would
instead stop with an arithmetic overflow).  `f32`/`f64` quantities (cell
sizes, scroll offsets, wheel deltas) are modelled as exact rationals `ℚ`;
the float-to-integer `as` casts keep their Rust truncate-and-saturate
semantics.
-/

namespace Wlte

/-- Number of values of a Rust `u32`, i.e. `2 ^ 32`. -/
def U32M : Nat := 4294967296

/-- Cast of a Rust `usize` value to `u32` (`as u32`): truncation mod `2 ^ 32`. -/
def usize_to_u32 (n : Nat) : Nat := n % U32M

/-- Result of a wrapping `u32` addition/subtraction in release mode. -/
def u32_wrap (n : Nat) : Nat := n % U32M

/-- Rust `f32 as u32` cast: truncate toward zero, saturating at the bounds. -/
def f32_to_u32 (q : ℚ) : Nat :=
  if q ≤ 0 then 0 else min (Int.toNat ⌊q⌋) (U32M - 1)

/-- Rust `f32 as i64` cast: truncate toward zero, saturating at the bounds. -/
def f32_to_i64 (q : ℚ) : ℤ :=
  max (-(2 ^ 63)) (min (2 ^ 63 - 1) (if 0 ≤ q then ⌊q⌋ else ⌈q⌉))

/-- `Position<T>` from `src/base/math.rs`. -/
structure Position (α : Type) where
  x : α
  y : α
deriving DecidableEq

/-- `Size<T>` from `src/base/math.rs`. -/
structure Size (α : Type) where
  w : α
  h : α
deriving DecidableEq

/-- `Bounds<T>` from `src/base/math.rs`: `pos` is the top-left corner. -/
structure Bounds (α : Type) where
  pos : Position α
  size : Size α
deriving DecidableEq

/-- `Bounds::right` from `src/base/math.rs`, at the type it is used at. -/
def Bounds.right (b : Bounds ℚ) : ℚ := b.pos.x + b.size.w

/-- `Bounds::left` from `src/base/math.rs`. -/
def Bounds.left (b : Bounds ℚ) : ℚ := b.pos.x

/-- `Bounds::top` from `src/base/math.rs`. -/
def Bounds.top (b : Bounds ℚ) : ℚ := b.pos.y

/-- `Bounds::bottom` from `src/base/math.rs`. -/
def Bounds.bottom (b : Bounds ℚ) : ℚ := b.pos.y + b.size.h

/-- `View::line_len_at` from `src/editor/view.rs`:
`buffer_lines(..).get(line).map(|l| l.graphemes(true).count()).unwrap_or(0)`,
with each buffer line abstracted by its grapheme-cluster count. -/
def line_len_at (lines : List Nat) (line : Nat) : Nat := lines.getD line 0

/-- `View::total_lines` from `src/editor/view.rs`. -/
def total_lines (lines : List Nat) : Nat := lines.length

/-- The navigation-relevant state of `App` (`src/app.rs`) with the `View`
(`src/editor/view.rs`) flattened into it: sticky column, cursor position
(`u32` cells), per-line grapheme counts, viewport (`u32` pixels) and scroll
offset (`f64` pixels, modelled as `ℚ`).  The cosmetic `text` field and the
font handle (an external collaborator, queried only through the cell size
passed to each operation) are omitted. -/
structure App where
  cursor_previous_line_x_pos : Option Nat
  cursor_pos : Position Nat
  lines : List Nat
  viewport : Bounds Nat
  scroll_offset : Position ℚ
deriving DecidableEq

/-- `ScrollCommand` from `src/app.rs`. -/
inductive ScrollCommand where
  | Px : ℚ → ℚ → ScrollCommand
  | Cells : ℤ → ℤ → ScrollCommand
deriving DecidableEq

/-- `Command` from `src/app.rs`. -/
inductive Command where
  | MoveCursorLeftWrap
  | MoveCursorRightWrap
  | MoveCursorUp
  | MoveCursorDown
  | MoveCursorToStartOfLine
  | MoveCursorToEndOfLine
  | MoveCursorUpOneViewPage
  | MoveCursorDownOneViewPage
  | ScrollView : ScrollCommand → Command
deriving DecidableEq

/-- The page height `(self.view.viewport().size.h as f32 / cell_size.h) as u32`
used by the view-page commands (`src/app.rs`, lines 147–158). -/
def page_height_cells (cell : Size ℚ) (viewport : Bounds Nat) : Nat :=
  f32_to_u32 ((viewport.size.h : ℚ) / cell.h)

/-- First block of `App::execute_command` (`src/app.rs`, lines 107–174): the
per-command mutation of the cursor or the scroll offset.  The two wrapping
spots are marked; a debug build would stop there with an arithmetic overflow
instead of wrapping. -/
def apply_motion (cell : Size ℚ) (app : App) (command : Command) : App :=
  match command with
  | Command.MoveCursorLeftWrap =>
      if app.cursor_pos.x = 0 then
        if app.cursor_pos.y ≠ 0 then
          -- `y -= 1` is safe here because the branch has `y != 0`.
          { app with cursor_pos :=
              ⟨usize_to_u32 (line_len_at app.lines (app.cursor_pos.y - 1) - 1),
               app.cursor_pos.y - 1⟩ }
        else app
      else
        -- `x - 1` is safe here because the branch has `x != 0`.
        { app with cursor_pos := ⟨app.cursor_pos.x - 1, app.cursor_pos.y⟩ }
  | Command.MoveCursorRightWrap =>
      if u32_wrap (app.cursor_pos.x + 1) ≥
          usize_to_u32 (line_len_at app.lines app.cursor_pos.y) then
        if u32_wrap (app.cursor_pos.y + 1) ≠ usize_to_u32 (total_lines app.lines) then
          { app with cursor_pos := ⟨0, u32_wrap (app.cursor_pos.y + 1)⟩ }
        else app
      else
        { app with cursor_pos := ⟨u32_wrap (app.cursor_pos.x + 1), app.cursor_pos.y⟩ }
  | Command.MoveCursorUp =>
      -- `saturating_sub`, which is `Nat` subtraction.
      { app with cursor_pos := ⟨app.cursor_pos.x, app.cursor_pos.y - 1⟩ }
  | Command.MoveCursorDown =>
      -- `(y + 1).min(total_lines() as u32 - 1)`: BOTH the increment and the
      -- decrement are plain `u32` arithmetic, so with zero lines the `- 1`
      -- wraps to `2^32 - 1` in release mode (debug mode: overflow abort).
      { app with cursor_pos :=
          ⟨app.cursor_pos.x,
           min (u32_wrap (app.cursor_pos.y + 1))
               (u32_wrap (usize_to_u32 (total_lines app.lines) + (U32M - 1)))⟩ }
  | Command.MoveCursorToStartOfLine =>
      { app with cursor_pos := ⟨0, app.cursor_pos.y⟩ }
  | Command.MoveCursorToEndOfLine =>
      { app with cursor_pos :=
          ⟨usize_to_u32 (line_len_at app.lines app.cursor_pos.y - 1), app.cursor_pos.y⟩ }
  | Command.MoveCursorUpOneViewPage =>
      { app with cursor_pos :=
          ⟨app.cursor_pos.x, app.cursor_pos.y - page_height_cells cell app.viewport⟩ }
  | Command.MoveCursorDownOneViewPage =>
      -- `(y + page).min(total_lines().saturating_sub(1) as u32)`.
      { app with cursor_pos :=
          ⟨app.cursor_pos.x,
           min (u32_wrap (app.cursor_pos.y + page_height_cells cell app.viewport))
               (usize_to_u32 (total_lines app.lines - 1))⟩ }
  | Command.ScrollView (ScrollCommand.Px x_px y_px) =>
      { app with scroll_offset :=
          ⟨app.scroll_offset.x + x_px, app.scroll_offset.y + y_px⟩ }
  | Command.ScrollView (ScrollCommand.Cells x_cell y_cell) =>
      { app with scroll_offset :=
          ⟨app.scroll_offset.x + cell.w * (x_cell : ℚ),
           app.scroll_offset.y + cell.h * (y_cell : ℚ)⟩ }

/-- Whether `command` is one of the four vertical moves the sticky-column
block applies to (`src/app.rs`, lines 176–182). -/
def is_vertical_move (command : Command) : Bool :=
  match command with
  | Command.MoveCursorUp | Command.MoveCursorDown
  | Command.MoveCursorUpOneViewPage | Command.MoveCursorDownOneViewPage => true
  | _ => false

/-- Second block of `App::execute_command` (`src/app.rs`, lines 176–200): the
sticky-column reconciliation, applied to the post-motion state `app`;
`previous_x` is `previous_cursor_pos.x` captured before the motion. -/
def apply_sticky (app : App) (previous_x : Nat) (command : Command) : App :=
  if is_vertical_move command then
    let current_line_len := usize_to_u32 (line_len_at app.lines app.cursor_pos.y)
    let sticky :=
      match app.cursor_previous_line_x_pos with
      | none => some previous_x
      | some p => some p
    let new_x :=
      if app.cursor_pos.x ≥ current_line_len then
        current_line_len - 1
      else
        match sticky with
        | some prev => if prev < current_line_len then prev else current_line_len - 1
        | none => app.cursor_pos.x
    { app with cursor_pos := ⟨new_x, app.cursor_pos.y⟩,
               cursor_previous_line_x_pos := sticky }
  else
    { app with cursor_previous_line_x_pos := none }

/-- The scroll-into-view reconciliation (`src/app.rs`, lines 240–267): build
the scrolled window, clamp its right, left, bottom and top edges against the
cursor bounds in that order, and read the new scroll offset back off the
window origin.  All quantities are `f64` in the source, modelled as `ℚ`. -/
def ensure_visible (viewport : Bounds ℚ) (scroll : Position ℚ) (cursor : Bounds ℚ) :
    Position ℚ :=
  let w0 : Bounds ℚ :=
    ⟨⟨viewport.pos.x + scroll.x, viewport.pos.y + scroll.y⟩, viewport.size⟩
  let w1 := if w0.right ≤ cursor.right then
      { w0 with pos := ⟨cursor.right - w0.size.w, w0.pos.y⟩ } else w0
  let w2 := if cursor.left ≤ w1.left then
      { w1 with pos := ⟨cursor.left, w1.pos.y⟩ } else w1
  let w3 := if w2.bottom ≤ cursor.bottom then
      { w2 with pos := ⟨w2.pos.x, cursor.bottom - w2.size.h⟩ } else w2
  let w4 := if cursor.top ≤ w3.top then
      { w3 with pos := ⟨w3.pos.x, cursor.top⟩ } else w3
  ⟨w4.pos.x - viewport.pos.x, w4.pos.y - viewport.pos.y⟩

/-- Third block of `App::execute_command` (`src/app.rs`, lines 202–268): for
every command except `ScrollView`, scroll the cursor cell into view. -/
def apply_scroll_adjust (cell : Size ℚ) (app : App) (command : Command) : App :=
  let should_adjust :=
    match command with
    | Command.ScrollView _ => false
    | _ => true
  if should_adjust then
    let cursor_bounds : Bounds ℚ :=
      ⟨⟨(app.cursor_pos.x : ℚ) * cell.w, (app.cursor_pos.y : ℚ) * cell.h⟩,
       ⟨cell.w, cell.h⟩⟩
    let viewport_q : Bounds ℚ :=
      ⟨⟨(app.viewport.pos.x : ℚ), (app.viewport.pos.y : ℚ)⟩,
       ⟨(app.viewport.size.w : ℚ), (app.viewport.size.h : ℚ)⟩⟩
    { app with scroll_offset := ensure_visible viewport_q app.scroll_offset cursor_bounds }
  else app

/-- `App::execute_command` (`src/app.rs`, lines 104–269): the per-command
motion, then the sticky-column reconciliation, then the scroll-into-view
adjustment, exactly in source order. -/
def execute_command (cell : Size ℚ) (app : App) (command : Command) : App :=
  apply_scroll_adjust cell
    (apply_sticky (apply_motion cell app command) app.cursor_pos.x command) command

/-- `winit`'s `MouseScrollDelta` as consumed by `App::handle_events`; the
`f32` line deltas and `f64` pixel deltas are modelled as `ℚ`. -/
inductive MouseScrollDelta where
  | LineDelta : ℚ → ℚ → MouseScrollDelta
  | PixelDelta : ℚ → ℚ → MouseScrollDelta
deriving DecidableEq

/-- The `MouseWheelEvent` branch of `App::handle_events` (`src/app.rs`, lines
279–289): a line delta `(right, down)` becomes `ScrollView(Cells(-right as
i64, -down as i64))`, a pixel delta becomes `ScrollView(Px(x, y))`. -/
def handle_mouse_wheel (cell : Size ℚ) (app : App) (delta : MouseScrollDelta) : App :=
  match delta with
  | MouseScrollDelta.LineDelta right down =>
      execute_command cell app
        (Command.ScrollView (ScrollCommand.Cells (f32_to_i64 (-right)) (f32_to_i64 (-down))))
  | MouseScrollDelta.PixelDelta px py =>
      execute_command cell app (Command.ScrollView (ScrollCommand.Px px py))

/-- Rust `f32::ceil` followed by `as u32` (`bounds.w.ceil() as u32`). -/
def f32_ceil_to_u32 (q : ℚ) : Nat :=
  if q ≤ 0 then 0 else min (Int.toNat ⌈q⌉) (U32M - 1)

/-- The `ResizeEvent` branch of `App::handle_events` (`src/app.rs`, lines
273–276 and 357–368): clamp the cursor against the screen's visible cell
grid, then replace the viewport.  `screen_size` is the size parameter of
`handle_events`, `new_size` the size carried by the event.  (Rust `u32`
division; a zero cell size would abort there, which no claim exercises.) -/
def handle_resize (cell : Size ℚ) (app : App) (screen_size new_size : Size Nat) : App :=
  let max_x := screen_size.w / f32_ceil_to_u32 cell.w
  let max_y := screen_size.h / f32_ceil_to_u32 cell.h
  { app with
      cursor_pos := ⟨min app.cursor_pos.x max_x, min app.cursor_pos.y max_y⟩,
      viewport := ⟨⟨0, 0⟩, new_size⟩ }

/-- The events a claim can drive the engine with: a navigation/scroll command
(keyboard paths of `handle_events` feed these to `execute_command`), a mouse
wheel event, or a resize event. -/
inductive Evt where
  | cmd : Command → Evt
  | wheel : MouseScrollDelta → Evt
  | resize : Size Nat → Size Nat → Evt

/-- Whether an event is a resize event. -/
def Evt.is_resize : Evt → Bool
  | Evt.resize _ _ => true
  | _ => false

/-- Dispatch one event, as `App::handle_events` does. -/
def step (cell : Size ℚ) (app : App) (e : Evt) : App :=
  match e with
  | Evt.cmd c => execute_command cell app c
  | Evt.wheel d => handle_mouse_wheel cell app d
  | Evt.resize s n => handle_resize cell app s n

/-- Run a sequence of events from a state. -/
def run (cell : Size ℚ) (app : App) (evts : List Evt) : App :=
  evts.foldl (step cell) app

/-- The initial state built in `App::run` (`src/app.rs`, lines 433–461):
cursor at `(0, 0)`, no sticky column, zero scroll offset. -/
def init (lines : List Nat) (viewport : Bounds Nat) : App :=
  { cursor_previous_line_x_pos := none
    cursor_pos := ⟨0, 0⟩
    lines := lines
    viewport := viewport
    scroll_offset := ⟨0, 0⟩ }

/-- A concrete 8×16-pixel cell size used by the concrete scenarios. -/
def cell8x16 : Size ℚ := ⟨8, 16⟩

/-- A concrete 400×160-pixel viewport at the origin. -/
def vp400x160 : Bounds Nat := ⟨⟨0, 0⟩, ⟨400, 160⟩⟩

/-- `Buffer` from `src/editor/buffer.rs`: the stored lines (as strings) and
the optional file path. -/
structure Buffer where
  lines : List String
  file_path : Option String
deriving DecidableEq

/-- `buffer_lines` from `src/editor/buffer.rs`. -/
def buffer_lines (b : Buffer) : List String := b.lines

/-- One step of Rust `str::lines`: a piece that was followed by a `\n` has a
single trailing `\r` stripped. -/
def strip_trailing_cr (s : String) : String :=
  if s.endsWith "\r" then s.dropRight 1 else s

/-- Rust `str::lines` on the pieces produced by splitting at `\n`: every
piece but the last was followed by a `\n` (so loses a trailing `\r`), and a
final empty piece (empty input, or input with a trailing line break) yields
no line. -/
def rust_lines_aux : List String → List String
  | [] => []
  | [last] => if last = "" then [] else [last]
  | piece :: rest => strip_trailing_cr piece :: rust_lines_aux rest

/-- Rust `content.lines().map(|s| s.to_string()).collect()`. -/
def rust_lines (content : String) : List String :=
  rust_lines_aux (content.splitOn "\n")

/-- `Buffer::new` from `src/editor/buffer.rs`. -/
def Buffer.new : Buffer := { lines := [], file_path := none }

/-- `Buffer::load` from `src/editor/buffer.rs`.  The `fs::read_to_string`
call is an external effect, so the read outcome is an explicit argument:
`some content` models a successful read, `none` a read error.  On success the
lines are the content split at line breaks; on failure the line list is empty;
the path is recorded either way and no error escapes (the function is total
into `Buffer`). -/
def Buffer.load (file_path : String) (read_result : Option String) : Buffer :=
  match read_result with
  | some content => { lines := rust_lines content, file_path := some file_path }
  | none => { lines := [], file_path := some file_path }

/-- The empty-buffer engine state used by the empty-buffer scenarios. -/
def empty_app : App := init [] vp400x160

/-- The unchecked `u32` subtraction `self.view.total_lines() as u32 - 1` in
the `MoveCursorDown` arm (`src/app.rs`, line 136) has minuend
`total_lines() as u32`; it underflows exactly when that minuend is `0`. -/
def move_cursor_down_minuend (lines : List Nat) : Nat :=
  usize_to_u32 (total_lines lines)

/-- Underflow condition of the `MoveCursorDown` subtraction: the minuend is
smaller than the subtrahend `1`. -/
def move_cursor_down_underflows (lines : List Nat) : Prop :=
  move_cursor_down_minuend lines < 1

/-- C2: the claim that every command handler uses only saturating/clamping
arithmetic fails: on an empty buffer, `MoveCursorDown` evaluates
`total_lines() as u32 - 1` with minuend `0`, an underflowing unchecked `u32`
subtraction (a debug build aborts there); in release mode it wraps to
`2^32 - 1` and the clamp `min` then lets the cursor row move to `1`, an
observable out-of-range state. -/
theorem move_cursor_down_underflow_on_empty :
    move_cursor_down_underflows [] ∧
      (execute_command cell8x16 empty_app Command.MoveCursorDown).cursor_pos.y = 1 := by
  constructor
  · show move_cursor_down_minuend [] < 1
    decide
  · decide

/-- C3: on the empty buffer, six of the eight cursor commands do leave the
cursor at `(0, 0)`, but `MoveCursorRightWrap` moves it to row `1` (because
the guard `y + 1 != total_lines` compares with `!=` rather than `<`, and
`1 ≠ 0`), and `MoveCursorDown` also moves it to row `1` (via the wrapped
`total_lines() as u32 - 1`).  The claim that every cursor command keeps the
cursor at `(0, 0)` therefore fails on the code. -/
theorem empty_buffer_commands_divergence :
    (execute_command cell8x16 empty_app Command.MoveCursorRightWrap).cursor_pos =
        ⟨0, 1⟩ ∧
      (execute_command cell8x16 empty_app Command.MoveCursorDown).cursor_pos = ⟨0, 1⟩ ∧
      (execute_command cell8x16 empty_app Command.MoveCursorLeftWrap).cursor_pos = ⟨0, 0⟩ ∧
      (execute_command cell8x16 empty_app Command.MoveCursorUp).cursor_pos = ⟨0, 0⟩ ∧
      (execute_command cell8x16 empty_app Command.MoveCursorToStartOfLine).cursor_pos =
        ⟨0, 0⟩ ∧
      (execute_command cell8x16 empty_app Command.MoveCursorToEndOfLine).cursor_pos =
        ⟨0, 0⟩ ∧
      (execute_command cell8x16 empty_app Command.MoveCursorUpOneViewPage).cursor_pos =
        ⟨0, 0⟩ ∧
      (execute_command cell8x16 empty_app Command.MoveCursorDownOneViewPage).cursor_pos =
        ⟨0, 0⟩ := by
  refine ⟨by decide, by decide, by decide, by decide, by decide, by decide, ?_, ?_⟩ <;>
    simp [execute_command, apply_motion, apply_sticky, apply_scroll_adjust,
      is_vertical_move, line_len_at, total_lines, usize_to_u32, u32_wrap, empty_app,
      init, U32M]

/-- The sticky-column scenario state: lines of grapheme lengths
`[20, 5, 20]`, cursor at row 0 column 15, sticky column unset. -/
def sticky_app : App :=
  { cursor_previous_line_x_pos := none
    cursor_pos := ⟨15, 0⟩
    lines := [20, 5, 20]
    viewport := vp400x160
    scroll_offset := ⟨0, 0⟩ }

/-- C4: sticky-column round trip.  From row 0, column 15 over lines of
lengths `[20, 5, 20]` with the sticky column unset, `MoveCursorDown`,
`MoveCursorDown`, `MoveCursorUp`, `MoveCursorUp` returns the cursor to row 0
at column 15 (the middle state clamps the column to 4, and the remembered
column 15 is restored on the way back). -/
theorem sticky_column_round_trip :
    (run cell8x16 sticky_app
        [Evt.cmd Command.MoveCursorDown, Evt.cmd Command.MoveCursorDown,
         Evt.cmd Command.MoveCursorUp, Evt.cmd Command.MoveCursorUp]).cursor_pos =
      ⟨15, 0⟩ ∧
      (run cell8x16 sticky_app
        [Evt.cmd Command.MoveCursorDown]).cursor_pos = ⟨4, 1⟩ := by
  decide

/-- C10: every scroll-only command (pixel or cell scroll) clears the
sticky-column memory even though it leaves the cursor position unchanged, so
a wheel scroll or arrow-key scroll nudge between two vertical cursor moves
discards the remembered column. -/
theorem scroll_command_clears_sticky (cell : Size ℚ) (app : App) (sc : ScrollCommand) :
    (execute_command cell app (Command.ScrollView sc)).cursor_previous_line_x_pos =
        none ∧
      (execute_command cell app (Command.ScrollView sc)).cursor_pos = app.cursor_pos := by
  cases sc <;>
    simp [execute_command, apply_scroll_adjust, apply_sticky, apply_motion,
      is_vertical_move]

/-- C7: page-bottom scenario.  Buffer of 10 lines of grapheme length 80,
viewport 400×160 pixels at the origin, 8×16-pixel cells, cursor starting at
`(0, 0)` with scroll offset `(0, 0)`.  Fifteen `MoveCursorDown` commands
leave the cursor at row 9 (clamped at `line_count - 1`), and the vertical
scroll offset (still `0`, since all ten 16-pixel rows fit the 160-pixel
viewport) keeps row 9 fully inside the visible vertical range with the
bottom of row 9 flush against the bottom of the visible window, i.e. row 9
is the bottom visible row. -/
theorem page_down_scenario :
    (run cell8x16 (init (List.replicate 10 80) vp400x160)
        (List.replicate 15 (Evt.cmd Command.MoveCursorDown))).cursor_pos = ⟨0, 9⟩ ∧
      (run cell8x16 (init (List.replicate 10 80) vp400x160)
        (List.replicate 15 (Evt.cmd Command.MoveCursorDown))).scroll_offset.y ≤
        9 * 16 ∧
      9 * 16 + 16 ≤
        (run cell8x16 (init (List.replicate 10 80) vp400x160)
          (List.replicate 15 (Evt.cmd Command.MoveCursorDown))).scroll_offset.y + 160 ∧
      (run cell8x16 (init (List.replicate 10 80) vp400x160)
          (List.replicate 15 (Evt.cmd Command.MoveCursorDown))).scroll_offset.y + 160 =
        (9 + 1) * 16 := by
  norm_num [run, step, execute_command, apply_motion, apply_sticky,
    apply_scroll_adjust, ensure_visible, is_vertical_move, line_len_at, total_lines,
    usize_to_u32, u32_wrap, U32M, init, cell8x16, vp400x160, Bounds.right, Bounds.left,
    Bounds.top, Bounds.bottom, List.replicate]

lemma apply_motion_lines (cell : Size ℚ) (app : App) (c : Command) :
    (apply_motion cell app c).lines = app.lines := by
  cases c
  case ScrollView sc => cases sc <;> rfl
  all_goals simp only [apply_motion] <;> split_ifs <;> rfl

lemma apply_sticky_lines (app : App) (px : Nat) (c : Command) :
    (apply_sticky app px c).lines = app.lines := by
  simp only [apply_sticky]
  split_ifs <;> rfl

lemma apply_sticky_y (app : App) (px : Nat) (c : Command) :
    (apply_sticky app px c).cursor_pos.y = app.cursor_pos.y := by
  simp only [apply_sticky]
  split_ifs <;> rfl

lemma apply_scroll_adjust_cursor (cell : Size ℚ) (app : App) (c : Command) :
    (apply_scroll_adjust cell app c).cursor_pos = app.cursor_pos := by
  simp only [apply_scroll_adjust]
  split_ifs <;> rfl

lemma apply_scroll_adjust_lines (cell : Size ℚ) (app : App) (c : Command) :
    (apply_scroll_adjust cell app c).lines = app.lines := by
  simp only [apply_scroll_adjust]
  split_ifs <;> rfl

lemma apply_scroll_adjust_sticky (cell : Size ℚ) (app : App) (c : Command) :
    (apply_scroll_adjust cell app c).cursor_previous_line_x_pos =
      app.cursor_previous_line_x_pos := by
  simp only [apply_scroll_adjust]
  split_ifs <;> rfl

lemma apply_sticky_scroll (app : App) (px : Nat) (c : Command) :
    (apply_sticky app px c).scroll_offset = app.scroll_offset := by
  simp only [apply_sticky]
  split_ifs <;> rfl

lemma execute_command_lines (cell : Size ℚ) (app : App) (c : Command) :
    (execute_command cell app c).lines = app.lines := by
  simp only [execute_command, apply_scroll_adjust_lines, apply_sticky_lines,
    apply_motion_lines]

lemma execute_command_cursor (cell : Size ℚ) (app : App) (c : Command) :
    (execute_command cell app c).cursor_pos =
      (apply_sticky (apply_motion cell app c) app.cursor_pos.x c).cursor_pos := by
  simp only [execute_command, apply_scroll_adjust_cursor]

lemma step_lines (cell : Size ℚ) (app : App) (e : Evt) :
    (step cell app e).lines = app.lines := by
  cases e with
  | cmd c => exact execute_command_lines cell app c
  | wheel d => cases d <;> exact execute_command_lines _ _ _
  | resize s n => rfl

lemma run_lines (cell : Size ℚ) (evts : List Evt) : ∀ app : App,
    (run cell app evts).lines = app.lines := by
  induction evts with
  | nil => intro app; rfl
  | cons e rest ih =>
      intro app
      simpa [run, List.foldl_cons, step_lines] using
        (ih (step cell app e)).trans (step_lines cell app e)

/-- Row part of the reachable-state invariant: the cursor row is a valid line
index. -/
def cursor_row_ok (app : App) : Prop :=
  app.cursor_pos.y < total_lines app.lines

/-- Column part of the reachable-state invariant: the cursor column is at
most `max(0, line_length(row) - 1)` (truncated `Nat` subtraction). -/
def cursor_col_ok (app : App) : Prop :=
  app.cursor_pos.x ≤ line_len_at app.lines app.cursor_pos.y - 1

lemma usize_to_u32_le (n : Nat) : usize_to_u32 n ≤ n := Nat.mod_le n U32M

lemma usize_to_u32_lt (n : Nat) : usize_to_u32 n < U32M := by
  have : 0 < U32M := by decide
  exact Nat.mod_lt n this

lemma apply_motion_sticky (cell : Size ℚ) (app : App) (c : Command) :
    (apply_motion cell app c).cursor_previous_line_x_pos =
      app.cursor_previous_line_x_pos := by
  cases c
  case ScrollView sc => cases sc <;> rfl
  all_goals simp only [apply_motion] <;> split_ifs <;> rfl

/-- Every motion keeps the row a valid line index (on a buffer with at least
one line and a line count below `2^32`). -/
lemma apply_motion_row (cell : Size ℚ) (app : App) (c : Command)
    (ht : total_lines app.lines < U32M)
    (h : app.cursor_pos.y < total_lines app.lines) :
    (apply_motion cell app c).cursor_pos.y < total_lines app.lines := by
  cases c
  case ScrollView sc => cases sc <;> exact h
  all_goals
    simp only [apply_motion, u32_wrap, usize_to_u32, U32M] at *
  all_goals
    try split_ifs
  all_goals
    try simp only [ge_iff_le, not_le, ne_eq] at *
  all_goals
    omega

lemma execute_command_row_ok (cell : Size ℚ) (app : App) (c : Command)
    (ht : total_lines app.lines < U32M) (h : cursor_row_ok app) :
    cursor_row_ok (execute_command cell app c) := by
  unfold cursor_row_ok
  rw [execute_command_lines, execute_command_cursor, apply_sticky_y]
  exact apply_motion_row cell app c ht h

lemma step_row_ok (cell : Size ℚ) (app : App) (e : Evt)
    (ht : total_lines app.lines < U32M) (h : cursor_row_ok app) :
    cursor_row_ok (step cell app e) := by
  cases e with
  | cmd c => exact execute_command_row_ok cell app c ht h
  | wheel d => cases d <;> exact execute_command_row_ok cell app _ ht h
  | resize s n =>
      unfold cursor_row_ok at h ⊢
      simp only [step, handle_resize, total_lines]
      exact lt_of_le_of_lt (Nat.min_le_left _ _) h

lemma run_row_ok (cell : Size ℚ) (evts : List Evt) : ∀ app : App,
    total_lines app.lines < U32M → cursor_row_ok app →
      cursor_row_ok (run cell app evts) := by
  induction evts with
  | nil => intro app _ h; exact h
  | cons e rest ih =>
      intro app ht h
      have hl := step_lines cell app e
      have ht' : total_lines (step cell app e).lines < U32M := by rw [hl]; exact ht
      exact ih (step cell app e) ht' (step_row_ok cell app e ht h)

/-- The motion of a non-vertical command keeps the column within
`max(0, line_length(row) - 1)`; vertical commands re-establish it through the
sticky-column reconciliation instead. -/
lemma apply_motion_col (cell : Size ℚ) (app : App) (c : Command)
    (hv : is_vertical_move c = false)
    (h : app.cursor_pos.x ≤ line_len_at app.lines app.cursor_pos.y - 1) :
    (apply_motion cell app c).cursor_pos.x ≤
      line_len_at app.lines (apply_motion cell app c).cursor_pos.y - 1 := by
  cases c
  case ScrollView sc => cases sc <;> exact h
  case MoveCursorUp => simp [is_vertical_move] at hv
  case MoveCursorDown => simp [is_vertical_move] at hv
  case MoveCursorUpOneViewPage => simp [is_vertical_move] at hv
  case MoveCursorDownOneViewPage => simp [is_vertical_move] at hv
  all_goals
    simp only [apply_motion, u32_wrap, usize_to_u32, U32M] at *
  all_goals
    try split_ifs
  all_goals
    try simp only [ge_iff_le, not_le, ne_eq] at *
  all_goals
    omega

/-- The sticky-column reconciliation of a vertical command clamps the column
back into `max(0, line_length(row) - 1)` regardless of the incoming column. -/
lemma apply_sticky_col_vertical (app : App) (px : Nat) (c : Command)
    (hv : is_vertical_move c = true) :
    (apply_sticky app px c).cursor_pos.x ≤
      line_len_at app.lines (apply_sticky app px c).cursor_pos.y - 1 := by
  have hle := usize_to_u32_le (line_len_at app.lines app.cursor_pos.y)
  simp only [apply_sticky, hv, if_true]
  cases app.cursor_previous_line_x_pos <;> (simp only; split_ifs <;> simp <;> omega)

lemma execute_command_col_ok (cell : Size ℚ) (app : App) (c : Command)
    (h : cursor_col_ok app) : cursor_col_ok (execute_command cell app c) := by
  unfold cursor_col_ok at h ⊢
  rw [execute_command_lines, execute_command_cursor]
  by_cases hv : is_vertical_move c = true
  · rw [← apply_motion_lines cell app c]
    exact apply_sticky_col_vertical (apply_motion cell app c) app.cursor_pos.x c hv
  · rw [Bool.not_eq_true] at hv
    have hs : (apply_sticky (apply_motion cell app c) app.cursor_pos.x c).cursor_pos =
        (apply_motion cell app c).cursor_pos := by
      simp [apply_sticky, hv]
    rw [hs]
    exact apply_motion_col cell app c hv h

lemma step_col_ok (cell : Size ℚ) (app : App) (e : Evt)
    (hres : e.is_resize = false) (h : cursor_col_ok app) :
    cursor_col_ok (step cell app e) := by
  cases e with
  | cmd c => exact execute_command_col_ok cell app c h
  | wheel d => cases d <;> exact execute_command_col_ok cell app _ h
  | resize s n => simp [Evt.is_resize] at hres

lemma run_col_ok (cell : Size ℚ) (evts : List Evt) : ∀ app : App,
    (∀ e ∈ evts, e.is_resize = false) → cursor_col_ok app →
      cursor_col_ok (run cell app evts) := by
  induction evts with
  | nil => intro app _ h; exact h
  | cons e rest ih =>
      intro app hres h
      exact ih (step cell app e) (fun x hx => hres x (List.mem_cons_of_mem e hx))
        (step_col_ok cell app e (hres e (List.mem_cons_self e rest)) h)

/-- Per-axis abbreviation of the two-sided edge clamp of `ensure_visible`
(`src/app.rs`, lines 247–253 for the horizontal axis, 254–260 for the
vertical one): `w` is the window extent, `l` the cursor's low edge, `cw` the
cursor extent, `x` the window's low edge. -/
def clamp_axis (w l cw x : ℚ) : ℚ :=
  let x1 := if x + w ≤ l + cw then l + cw - w else x
  if l ≤ x1 then l else x1

lemma clamp_axis_idem (w l cw x : ℚ) :
    clamp_axis w l cw (clamp_axis w l cw x) = clamp_axis w l cw x := by
  unfold clamp_axis
  dsimp only
  split_ifs <;> linarith

/-- The four sequential edge clamps of `ensure_visible` decompose into one
independent clamp per axis. -/
lemma ensure_visible_eq (vp : Bounds ℚ) (s : Position ℚ) (c : Bounds ℚ) :
    ensure_visible vp s c =
      ⟨clamp_axis vp.size.w c.pos.x c.size.w (vp.pos.x + s.x) - vp.pos.x,
       clamp_axis vp.size.h c.pos.y c.size.h (vp.pos.y + s.y) - vp.pos.y⟩ := by
  unfold ensure_visible clamp_axis Bounds.right Bounds.left Bounds.top Bounds.bottom
  dsimp only
  split_ifs <;> rfl

/-- C6: the scroll-into-view reconciliation is idempotent — applying the
right/left/bottom/top clamping a second time with the same cursor bounds
leaves the scroll offset produced by the first application unchanged. -/
theorem ensure_visible_idempotent (vp : Bounds ℚ) (s : Position ℚ) (c : Bounds ℚ) :
    ensure_visible vp (ensure_visible vp s c) c = ensure_visible vp s c := by
  rw [ensure_visible_eq vp s c, ensure_visible_eq]
  dsimp only
  rw [show vp.pos.x +
        (clamp_axis vp.size.w c.pos.x c.size.w (vp.pos.x + s.x) - vp.pos.x) =
      clamp_axis vp.size.w c.pos.x c.size.w (vp.pos.x + s.x) by ring]
  rw [show vp.pos.y +
        (clamp_axis vp.size.h c.pos.y c.size.h (vp.pos.y + s.y) - vp.pos.y) =
      clamp_axis vp.size.h c.pos.y c.size.h (vp.pos.y + s.y) by ring]
  rw [clamp_axis_idem, clamp_axis_idem]

/-- C8: `Buffer::load` fails open.  A failed read yields an empty line list
(`line_count() == 0`) with the path still recorded, and no error escapes
(`load` is total); a successful read yields the content split at line breaks
with the path recorded. -/
theorem buffer_load_fails_open :
    (∀ path : String,
        buffer_lines (Buffer.load path none) = [] ∧
          (buffer_lines (Buffer.load path none)).length = 0 ∧
          (Buffer.load path none).file_path = some path) ∧
      (∀ path content : String,
        buffer_lines (Buffer.load path (some content)) = rust_lines content ∧
          (Buffer.load path (some content)).file_path = some path) ∧
      buffer_lines (Buffer.load "/nonexistent" none) = [] := by
  refine ⟨fun path => ⟨rfl, rfl, rfl⟩, fun path content => ⟨rfl, rfl⟩, rfl⟩

lemma usize_to_u32_eq_of_lt {n : Nat} (h : n < U32M) : usize_to_u32 n = n :=
  Nat.mod_eq_of_lt h

lemma execute_nonvertical_cursor (cell : Size ℚ) (app : App) (c : Command)
    (hv : is_vertical_move c = false) :
    (execute_command cell app c).cursor_pos = (apply_motion cell app c).cursor_pos := by
  rw [execute_command_cursor]
  simp [apply_sticky, hv]

/-- C5: wrap semantics of the horizontal moves, for a buffer whose line count
and line lengths fit in `u32`.  `MoveCursorLeftWrap` at column 0 of a row
`y ≠ 0` lands on the last valid column (`line length − 1`, saturating at 0)
of the previous row, and is a no-op for the cursor at `(0, 0)`;
`MoveCursorRightWrap` at the last valid column of a non-final row lands on
column 0 of the next row, and leaves the cursor unchanged at the last valid
column of the final row. -/
theorem wrap_move_semantics (cell : Size ℚ) (lines : List Nat) (vp : Bounds Nat)
    (scroll : Position ℚ) (sticky : Option Nat)
    (hne : 1 ≤ total_lines lines) (ht : total_lines lines < U32M)
    (hlen : ∀ i, line_len_at lines i < U32M) :
    (∀ y : Nat, y ≠ 0 →
      (execute_command cell ⟨sticky, ⟨0, y⟩, lines, vp, scroll⟩
          Command.MoveCursorLeftWrap).cursor_pos =
        ⟨line_len_at lines (y - 1) - 1, y - 1⟩) ∧
    ((execute_command cell ⟨sticky, ⟨0, 0⟩, lines, vp, scroll⟩
        Command.MoveCursorLeftWrap).cursor_pos = ⟨0, 0⟩) ∧
    (∀ y : Nat, y + 1 < total_lines lines →
      (execute_command cell ⟨sticky, ⟨line_len_at lines y - 1, y⟩, lines, vp, scroll⟩
          Command.MoveCursorRightWrap).cursor_pos = ⟨0, y + 1⟩) ∧
    (∀ y : Nat, y + 1 = total_lines lines →
      (execute_command cell ⟨sticky, ⟨line_len_at lines y - 1, y⟩, lines, vp, scroll⟩
          Command.MoveCursorRightWrap).cursor_pos =
        ⟨line_len_at lines y - 1, y⟩) := by
  refine ⟨fun y hy => ?_, ?_, fun y hy => ?_, fun y hy => ?_⟩
  · rw [execute_nonvertical_cursor cell _ Command.MoveCursorLeftWrap rfl]
    have h1 := hlen (y - 1)
    simp only [apply_motion, u32_wrap, usize_to_u32, U32M] at *
    split_ifs <;> simp only [Position.mk.injEq, and_true, true_and] <;> omega
  · rw [execute_nonvertical_cursor cell _ Command.MoveCursorLeftWrap rfl]
    simp [apply_motion]
  · rw [execute_nonvertical_cursor cell _ Command.MoveCursorRightWrap rfl]
    have h1 := hlen y
    simp only [apply_motion, u32_wrap, usize_to_u32, U32M] at *
    split_ifs <;> simp only [Position.mk.injEq, and_true, true_and] <;> omega
  · rw [execute_nonvertical_cursor cell _ Command.MoveCursorRightWrap rfl]
    have h1 := hlen y
    simp only [apply_motion, u32_wrap, usize_to_u32, U32M] at *
    split_ifs <;> simp only [Position.mk.injEq, and_true, true_and] <;> omega

/-- Satisfiable-hypothesis witness for `wrap_move_semantics`, instantiated at
the two-line buffer `[2, 3]`. -/
theorem wrap_move_semantics_witness :
    1 ≤ total_lines [2, 3] ∧ total_lines [2, 3] < U32M ∧
      (∀ i, line_len_at [2, 3] i < U32M) ∧
      ((∀ y : Nat, y ≠ 0 →
        (execute_command cell8x16 ⟨none, ⟨0, y⟩, [2, 3], vp400x160, ⟨0, 0⟩⟩
            Command.MoveCursorLeftWrap).cursor_pos =
          ⟨line_len_at [2, 3] (y - 1) - 1, y - 1⟩) ∧
      ((execute_command cell8x16 ⟨none, ⟨0, 0⟩, [2, 3], vp400x160, ⟨0, 0⟩⟩
          Command.MoveCursorLeftWrap).cursor_pos = ⟨0, 0⟩) ∧
      (∀ y : Nat, y + 1 < total_lines [2, 3] →
        (execute_command cell8x16
            ⟨none, ⟨line_len_at [2, 3] y - 1, y⟩, [2, 3], vp400x160, ⟨0, 0⟩⟩
            Command.MoveCursorRightWrap).cursor_pos = ⟨0, y + 1⟩) ∧
      (∀ y : Nat, y + 1 = total_lines [2, 3] →
        (execute_command cell8x16
            ⟨none, ⟨line_len_at [2, 3] y - 1, y⟩, [2, 3], vp400x160, ⟨0, 0⟩⟩
            Command.MoveCursorRightWrap).cursor_pos =
          ⟨line_len_at [2, 3] y - 1, y⟩)) := by
  have hlen23 : ∀ i, line_len_at [2, 3] i < U32M := by
    intro i
    match i with
    | 0 => decide
    | 1 => decide
    | n + 2 =>
        have h0 : line_len_at [2, 3] (n + 2) = 0 := by
          unfold line_len_at
          apply List.getD_eq_default
          simp
        rw [h0]
        decide
  exact ⟨by decide, by decide, hlen23,
    wrap_move_semantics cell8x16 [2, 3] vp400x160 ⟨0, 0⟩ none (by decide) (by decide)
      hlen23⟩

/-- C9 (amended): the mouse-wheel mapping.  A line delta `(right, down)` is
first converted to whole cells by the `as i64` cast — truncation toward
zero, saturating at the `i64` bounds — producing a cell-unit scroll of
`(trunc(-right), trunc(-down))` cells, each converted to pixels by the
current cell width and height and added to the scroll offset; in particular
for integer line deltas within the `i64` range the cell-unit scroll is
exactly `(-right, -down)` cells.  A pixel delta `(x, y)` is added to the
scroll offset directly with no sign inversion. -/
theorem mouse_wheel_mapping (cell : Size ℚ) (app : App) :
    (∀ r d : ℚ,
      (handle_mouse_wheel cell app
          (MouseScrollDelta.LineDelta r d)).scroll_offset =
        ⟨app.scroll_offset.x + cell.w * ((f32_to_i64 (-r) : ℤ) : ℚ),
         app.scroll_offset.y + cell.h * ((f32_to_i64 (-d) : ℤ) : ℚ)⟩) ∧
    (∀ r d : ℤ, -(2 ^ 63) + 1 ≤ r → r ≤ 2 ^ 63 → -(2 ^ 63) + 1 ≤ d → d ≤ 2 ^ 63 →
      (handle_mouse_wheel cell app
          (MouseScrollDelta.LineDelta (r : ℚ) (d : ℚ))).scroll_offset =
        ⟨app.scroll_offset.x + cell.w * ((-r : ℤ) : ℚ),
         app.scroll_offset.y + cell.h * ((-d : ℤ) : ℚ)⟩) ∧
    (∀ px py : ℚ,
      (handle_mouse_wheel cell app (MouseScrollDelta.PixelDelta px py)).scroll_offset =
        ⟨app.scroll_offset.x + px, app.scroll_offset.y + py⟩) := by
  have hcast : ∀ r : ℤ, -(2 ^ 63) + 1 ≤ r → r ≤ 2 ^ 63 → f32_to_i64 (-(r : ℚ)) = -r := by
    intro r hr1 hr2
    have hc : (-(r : ℚ)) = ((-r : ℤ) : ℚ) := by push_cast; ring
    rw [hc]
    unfold f32_to_i64
    split_ifs with h
    · rw [Int.floor_intCast,
        min_eq_right (show (-r : ℤ) ≤ 2 ^ 63 - 1 by omega),
        max_eq_right (show -(2 ^ 63) ≤ (-r : ℤ) by omega)]
    · rw [Int.ceil_intCast,
        min_eq_right (show (-r : ℤ) ≤ 2 ^ 63 - 1 by omega),
        max_eq_right (show -(2 ^ 63) ≤ (-r : ℤ) by omega)]
  have hline : ∀ r d : ℚ,
      (handle_mouse_wheel cell app
          (MouseScrollDelta.LineDelta r d)).scroll_offset =
        ⟨app.scroll_offset.x + cell.w * ((f32_to_i64 (-r) : ℤ) : ℚ),
         app.scroll_offset.y + cell.h * ((f32_to_i64 (-d) : ℤ) : ℚ)⟩ := by
    intro r d
    simp only [handle_mouse_wheel]
    simp only [execute_command, apply_scroll_adjust, apply_sticky_scroll]
    simp [apply_sticky, is_vertical_move, apply_motion]
  refine ⟨hline, ?_, ?_⟩
  · intro r d hr1 hr2 hd1 hd2
    rw [hline (r : ℚ) (d : ℚ), hcast r hr1 hr2, hcast d hd1 hd2]
  · intro px py
    simp only [handle_mouse_wheel]
    simp only [execute_command, apply_scroll_adjust, apply_sticky_scroll]
    simp [apply_sticky, is_vertical_move, apply_motion]

/-- C9 fails as stated for fractional line deltas: a `(0.5, 0.5)` line delta
is truncated to zero cells by the `as i64` cast, so the scroll offset does
not move at all, while the claimed mapping demands a scroll of
`-0.5 · cell_width` pixels (here `-4`). -/
theorem mouse_wheel_fractional_counterexample :
    (handle_mouse_wheel cell8x16 empty_app
        (MouseScrollDelta.LineDelta (1 / 2 : ℚ) (1 / 2 : ℚ))).scroll_offset =
      ⟨0, 0⟩ ∧
      (handle_mouse_wheel cell8x16 empty_app
          (MouseScrollDelta.LineDelta (1 / 2 : ℚ) (1 / 2 : ℚ))).scroll_offset.x ≠
        empty_app.scroll_offset.x + cell8x16.w * (-(1 / 2 : ℚ)) := by
  have hceil : ⌈(-(1 / 2 : ℚ))⌉ = 0 := by
    rw [Int.ceil_eq_iff]
    norm_num
  have htrunc : f32_to_i64 (-(1 / 2 : ℚ)) = 0 := by
    unfold f32_to_i64
    rw [if_neg (by norm_num), hceil]
    norm_num
  constructor
  · simp only [handle_mouse_wheel, htrunc]
    simp only [execute_command, apply_scroll_adjust, apply_sticky_scroll]
    norm_num [apply_sticky, is_vertical_move, apply_motion, empty_app, init,
      cell8x16]
  · simp only [handle_mouse_wheel, htrunc]
    simp only [execute_command, apply_scroll_adjust, apply_sticky_scroll]
    norm_num [apply_sticky, is_vertical_move, apply_motion, empty_app, init,
      cell8x16]

/-- Satisfiable-hypothesis witness for `mouse_wheel_mapping`, at a line delta
of `(1, 2)` and a pixel delta of `(3, 4)`. -/
theorem mouse_wheel_mapping_witness :
    (-(2 ^ 63) + 1 ≤ (1 : ℤ)) ∧ ((1 : ℤ) ≤ 2 ^ 63) ∧
      (-(2 ^ 63) + 1 ≤ (2 : ℤ)) ∧ ((2 : ℤ) ≤ 2 ^ 63) ∧
      ((handle_mouse_wheel cell8x16 empty_app
          (MouseScrollDelta.LineDelta ((1 : ℤ) : ℚ) ((2 : ℤ) : ℚ))).scroll_offset =
        ⟨empty_app.scroll_offset.x + cell8x16.w * ((-(1 : ℤ) : ℤ) : ℚ),
         empty_app.scroll_offset.y + cell8x16.h * ((-(2 : ℤ) : ℤ) : ℚ)⟩) ∧
      ((handle_mouse_wheel cell8x16 empty_app
          (MouseScrollDelta.PixelDelta 3 4)).scroll_offset =
        ⟨empty_app.scroll_offset.x + 3, empty_app.scroll_offset.y + 4⟩) :=
  ⟨by norm_num, by norm_num, by norm_num, by norm_num,
    (mouse_wheel_mapping cell8x16 empty_app).2.1 1 2 (by norm_num) (by norm_num)
      (by norm_num) (by norm_num),
    (mouse_wheel_mapping cell8x16 empty_app).2.2 3 4⟩

/-- C1 (amended): for a buffer with at least one line and fewer than `2^32`
lines, every state reachable from the initial cursor `(0, 0)` by any
sequence of commands, wheel events and resize events keeps
`0 ≤ row < max(1, line_count)`, and if the sequence contains no resize event
it also keeps `0 ≤ column ≤ max(0, line_length(row) − 1)`. -/
theorem cursor_reachable_invariant (cell : Size ℚ) (lines : List Nat)
    (vp : Bounds Nat) (evts : List Evt)
    (h1 : 1 ≤ total_lines lines) (ht : total_lines lines < U32M) :
    ((run cell (init lines vp) evts).cursor_pos.y : ℤ) <
        max 1 (total_lines lines : ℤ) ∧
      ((∀ e ∈ evts, e.is_resize = false) →
        ((run cell (init lines vp) evts).cursor_pos.x : ℤ) ≤
          max 0
            ((line_len_at lines (run cell (init lines vp) evts).cursor_pos.y : ℤ) -
              1)) := by
  have hlines : (run cell (init lines vp) evts).lines = lines :=
    run_lines cell evts (init lines vp)
  have hrow : cursor_row_ok (run cell (init lines vp) evts) := by
    refine run_row_ok cell evts (init lines vp) ?_ ?_
    · exact ht
    · unfold cursor_row_ok
      simp only [init]
      omega
  unfold cursor_row_ok at hrow
  rw [hlines] at hrow
  constructor
  · omega
  · intro hres
    have hcol : cursor_col_ok (run cell (init lines vp) evts) := by
      refine run_col_ok cell evts (init lines vp) hres ?_
      unfold cursor_col_ok
      simp only [init]
      omega
    unfold cursor_col_ok at hcol
    rw [hlines] at hcol
    omega

/-- Satisfiable-hypothesis witness for `cursor_reachable_invariant`,
instantiated at a one-line buffer and a single `MoveCursorRightWrap`. -/
theorem cursor_reachable_invariant_witness :
    1 ≤ total_lines [3] ∧ total_lines [3] < U32M ∧
      (((run cell8x16 (init [3] vp400x160)
            [Evt.cmd Command.MoveCursorRightWrap]).cursor_pos.y : ℤ) <
          max 1 (total_lines [3] : ℤ) ∧
        ((∀ e ∈ [Evt.cmd Command.MoveCursorRightWrap], e.is_resize = false) →
          ((run cell8x16 (init [3] vp400x160)
              [Evt.cmd Command.MoveCursorRightWrap]).cursor_pos.x : ℤ) ≤
            max 0
              ((line_len_at [3]
                  (run cell8x16 (init [3] vp400x160)
                    [Evt.cmd Command.MoveCursorRightWrap]).cursor_pos.y : ℤ) -
                1))) :=
  ⟨by decide, by decide,
    cursor_reachable_invariant cell8x16 [3] vp400x160
      [Evt.cmd Command.MoveCursorRightWrap] (by decide) (by decide)⟩

/-- The event sequence of the resize counterexample: move to row 1, walk to
column 15 of the 20-cell line, then shrink the screen to a single 15-pixel
row so the resize clamp drags the row back to 0 (a 2-cell line) while
leaving the column at 15. -/
def resize_evts : List Evt :=
  Evt.cmd Command.MoveCursorDown ::
    (List.replicate 15 (Evt.cmd Command.MoveCursorRightWrap) ++
      [Evt.resize ⟨800, 15⟩ ⟨800, 15⟩])

/-- The state the resize counterexample reaches over a `[2, 20]` buffer. -/
def resize_app : App := run cell8x16 (init [2, 20] vp400x160) resize_evts

/-- C1 fails as stated: on the empty buffer a single `MoveCursorRightWrap`
pushes the row to 1, violating `row < max(1, line_count) = 1`; and on the
non-empty buffer `[2, 20]` a reachable resize event clamps the cursor onto
row 0 while the column stays 15, violating
`column ≤ max(0, line_length(0) − 1) = 1`. -/
theorem cursor_invariant_counterexample :
    ((run cell8x16 (init ([] : List Nat) vp400x160)
        [Evt.cmd Command.MoveCursorRightWrap]).cursor_pos.y : ℤ) = 1 ∧
      ¬ ((run cell8x16 (init ([] : List Nat) vp400x160)
          [Evt.cmd Command.MoveCursorRightWrap]).cursor_pos.y : ℤ) <
        max 1 (total_lines ([] : List Nat) : ℤ) ∧
      resize_app.cursor_pos = ⟨15, 0⟩ ∧
      ¬ (resize_app.cursor_pos.x : ℤ) ≤
        max 0 ((line_len_at [2, 20] resize_app.cursor_pos.y : ℤ) - 1) := by
  have happ : resize_app.cursor_pos = ⟨15, 0⟩ := by
    norm_num [resize_app, resize_evts, run, step, execute_command, apply_motion,
      apply_sticky, apply_scroll_adjust, ensure_visible, is_vertical_move,
      handle_resize, f32_ceil_to_u32, line_len_at, total_lines, usize_to_u32,
      u32_wrap, U32M, init, cell8x16, vp400x160, Bounds.right, Bounds.left,
      Bounds.top, Bounds.bottom, List.replicate, Int.toNat_ofNat]
    decide
  refine ⟨by decide, by decide, happ, ?_⟩
  rw [happ]
  norm_num [line_len_at]

end Wlte
